import Mathlib

/-!
Verification development for the NVSentinel GPU fleet reliability system.

The definitions below are a shallow embedding of the parts of the repository
that the verified properties speak about:

* the NVML XID signal classifier (`defaultIgnoredXids`, `criticalXids`,
  `GetXidSeverity`, `isIgnoredXid`, `xidToString`, `ParseIgnoredXids`),
  translated from the Go source in the `nvml` package;
* the composite gang discoverer (`compositeCanHandle`,
  `compositeDiscoverPeers`), translated from `preflight/pkg/gang/composite.go`;
* the HealthEvent phase machine, the remediation pipeline and the in-memory
  object store, modelled from the specification (their implementation is not
  part of the source tree that accompanies the spec; only their tests are).

Machine integers (`uint64` XID codes, the 8-byte store revision) are modelled
as `Nat`; the source never exercises overflow on them, and where a width check
matters (`strconv.ParseUint(tok, 10, 64)`) the bound `2 ^ 64` appears
explicitly.
-/

namespace NVSentinel

/-! ## XID signal classifier (translated from the `nvml` Go package) -/

/-- Key set of the Go map `defaultIgnoredXids`: XID codes that are typically
caused by application errors rather than hardware failures. -/
def defaultIgnoredXidList : List Nat := [13, 31, 43, 45, 68, 109]

/-- Characteristic function of the Go map `defaultIgnoredXids` (a map lookup
with `bool` values defaulting to `false`). -/
def defaultIgnoredXids (xid : Nat) : Bool := defaultIgnoredXidList.contains xid

/-- Key set of the Go map `criticalXids`: XID codes indicating critical
hardware failures. -/
def criticalXidList : List Nat := [48, 63, 64, 74, 79, 94, 95, 119, 120]

/-- Characteristic function of the Go map `criticalXids`. -/
def criticalXids (xid : Nat) : Bool := criticalXidList.contains xid

/-- Severity level of an XID error, mirroring the Go `XidSeverity` enum. -/
inductive XidSeverity where
  | unknown
  | ignored
  | warning
  | critical
deriving DecidableEq

/-- Translation of `GetXidSeverity`: default-ignored codes are `ignored`,
critical codes are `critical`, every other code is `warning`. -/
def GetXidSeverity (xid : Nat) : XidSeverity :=
  if defaultIgnoredXids xid then XidSeverity.ignored
  else if criticalXids xid then XidSeverity.critical
  else XidSeverity.warning

/-- Translation of `isIgnoredXid`: an XID is ignored when it is in the default
ignored list or in the user-supplied additional ignored list. -/
def isIgnoredXid (xid : Nat) (additionalIgnored : List Nat) : Bool :=
  if defaultIgnoredXids xid then true
  else additionalIgnored.any (fun ignoredXid => xid == ignoredXid)

/-- Translation of the Go map `XidDescriptions`, as a partial lookup. -/
def XidDescriptions (xid : Nat) : Option String :=
  match xid with
  | 13 => some "Graphics Engine Exception"
  | 31 => some "GPU memory page fault"
  | 43 => some "GPU stopped processing"
  | 45 => some "Preemptive cleanup"
  | 68 => some "Video processor exception"
  | 109 => some "Context Switch Timeout"
  | 48 => some "Double Bit ECC Error"
  | 63 => some "Row remapping failure"
  | 64 => some "Uncontained ECC error"
  | 74 => some "NVLink error"
  | 79 => some "GPU has fallen off the bus"
  | 94 => some "Contained ECC error"
  | 95 => some "Uncontained ECC error"
  | 8 => some "GPU not accessible"
  | 32 => some "Invalid or corrupted push buffer stream"
  | 38 => some "Driver firmware error"
  | 56 => some "Display engine error"
  | 57 => some "Error programming video memory interface"
  | 62 => some "Internal micro-controller halt (non-fatal)"
  | 69 => some "Graphics engine accessor error"
  | 119 => some "GSP error"
  | 120 => some "GSP firmware error"
  | _ => none

/-- Translation of `xidToString`: the description from `XidDescriptions`, or
the fallback string for codes that are missing from the table. -/
def xidToString (xid : Nat) : String :=
  match XidDescriptions xid with
  | some desc => desc
  | none => "Unknown XID"

/-- Separator predicate passed to `strings.FieldsFunc` in `ParseIgnoredXids`:
a comma or a space. -/
def isXidSeparator (c : Char) : Bool := c = ',' || c = ' '

/-- Translation of the scanning loop of Go `strings.FieldsFunc`: accumulate
the current field in `acc` (reversed), emit it when a separator run or the
end of input is reached, and never emit empty fields. -/
def fieldsFuncAux : List Char → List Char → List (List Char)
  | [], acc => if acc.isEmpty then [] else [acc.reverse]
  | c :: cs, acc =>
      if isXidSeparator c then
        if acc.isEmpty then fieldsFuncAux cs []
        else acc.reverse :: fieldsFuncAux cs []
      else fieldsFuncAux cs (c :: acc)

/-- Translation of `strings.FieldsFunc(input, isXidSeparator)`. -/
def fieldsFunc (cs : List Char) : List (List Char) := fieldsFuncAux cs []

/-- Translation of `strconv.ParseUint(tok, 10, 64)`: succeeds exactly on
non-empty all-digit tokens whose value fits in 64 bits. -/
def parseUint64 (cs : List Char) : Option Nat :=
  if cs.isEmpty then none
  else if cs.all Char.isDigit then
    let v := cs.foldl (fun acc c => acc * 10 + (c.toNat - Char.toNat '0')) 0
    if v < 2 ^ 64 then some v else none
  else none

/-- Translation of `ParseIgnoredXids`: split the input on commas and spaces,
accumulate the tokens that parse as unsigned integers, skip the rest, and
return `nil` (here `[]`) for the empty input or when no token parses. -/
def ParseIgnoredXids (input : String) : List Nat :=
  if input = "" then []
  else
    let tokens := fieldsFunc input.toList
    let result := tokens.foldl
      (fun acc tok =>
        match parseUint64 tok with
        | none => acc
        | some v => acc ++ [v]) ([] : List Nat)
    if result.length = 0 then [] else result

/-! ## Composite gang discoverer (translated from `preflight/pkg/gang/composite.go`)

The `Pod` and `Info` types, and the error type `E` of `DiscoverPeers`, are
opaque to the composite, so they are type parameters here; a Go
`(*GangInfo, error)` return value is the pair `Option Info × Option E`,
`(none, none)` standing for `(nil, nil)`. -/

/-- Capability record of a member discoverer: `CanHandle`, `ExtractGangID`
and `DiscoverPeers` of the Go `GangDiscoverer` interface. -/
structure GangDiscoverer (Pod Info E : Type) where
  canHandle : Pod → Bool
  extractGangID : Pod → String
  discoverPeers : Pod → Option Info × Option E

/-- Translation of `CompositeGangDiscoverer.CanHandle`: loop over the members
in construction order; return true as soon as one can handle the pod. -/
def compositeCanHandle {Pod Info E : Type}
    (ds : List (GangDiscoverer Pod Info E)) (pod : Pod) : Bool :=
  match ds with
  | [] => false
  | d :: rest => if d.canHandle pod then true else compositeCanHandle rest pod

/-- Translation of `CompositeGangDiscoverer.DiscoverPeers`: the first member
whose `CanHandle` returns true answers; `(nil, nil)` when none can (the pod is
treated as a singleton). -/
def compositeDiscoverPeers {Pod Info E : Type}
    (ds : List (GangDiscoverer Pod Info E)) (pod : Pod) : Option Info × Option E :=
  match ds with
  | [] => (none, none)
  | d :: rest => if d.canHandle pod then d.discoverPeers pod
                 else compositeDiscoverPeers rest pod

/-! ## In-memory object store

Modelled from the spec: the implementation of the in-memory store
(`pkg/storage/memory`) is not part of the accompanying source tree — only its
tests and its factory are — so the store is modelled from §3.3 and §4.2 of the
specification. Keys are path strings, values are opaque encoded bytes
(modelled as `String`), every stored value carries the revision it was written
at, and the store holds a global revision counter that is incremented on every
write. -/

/-- Sentinel error kinds of the store contract (§4.2, §6.4). -/
inductive StoreErr where
  | alreadyExists
  | notFound
  | conflict
deriving DecidableEq

/-- Modelled from the spec: the in-memory store state — a keyed collection of
`(value, revision)` entries plus the global revision counter (§3.3). -/
structure Store where
  data : List (String × String × Nat)
  rev : Nat
deriving DecidableEq

/-- Lookup of a key in the store's entry list (first match). -/
def lookupEntry : List (String × String × Nat) → String → Option (String × Nat)
  | [], _ => none
  | e :: es, k => if e.1 = k then some e.2 else lookupEntry es k

/-- Removal of a key from the store's entry list. -/
def removeEntry : List (String × String × Nat) → String → List (String × String × Nat)
  | [], _ => []
  | e :: es, k => if e.1 = k then removeEntry es k else e :: removeEntry es k

/-- Value and stamped revision currently stored under a key. -/
def Store.lookup (s : Store) (k : String) : Option (String × Nat) :=
  lookupEntry s.data k

/-- Modelled from the spec: a fresh store is empty with revision counter 0. -/
def Store.init : Store := ⟨[], 0⟩

/-- Modelled from the spec: `Create(key, obj)` fails with `AlreadyExists` if
the key is present; otherwise assigns the next revision, stores the object
stamped with it, and returns that revision (§4.2). -/
def Store.create (s : Store) (k v : String) : Except StoreErr (Store × Nat) :=
  match s.lookup k with
  | some _ => .error .alreadyExists
  | none => .ok (⟨(k, v, s.rev + 1) :: s.data, s.rev + 1⟩, s.rev + 1)

/-- Modelled from the spec: `Get(key)` fails with `NotFound` if the key is
absent; otherwise returns the value plus its revision (§4.2). -/
def Store.get (s : Store) (k : String) : Except StoreErr (String × Nat) :=
  match s.lookup k with
  | some e => .ok e
  | none => .error .notFound

/-- Modelled from the spec: `Delete(key)` fails with `NotFound` if the key is
absent; otherwise removes the entry and returns the deleted value (§4.2). -/
def Store.delete (s : Store) (k : String) : Except StoreErr (Store × String × Nat) :=
  match s.lookup k with
  | none => .error .notFound
  | some (v, r) => .ok (⟨removeEntry s.data k, s.rev + 1⟩, v, r)

/-- Modelled from the spec: one compare-and-swap attempt of a
`GuaranteedUpdate` round. The updater read the store at revision `readRev`;
the attempt observes `Conflict` exactly when that read revision differs from
the store's current revision (§8, invariant 7). Otherwise the mutator is
applied under the critical section: if it returns an object equal to the
current one no write happens and the current revision is returned, else the
new object is stored stamped with the incremented revision (§4.2). -/
def Store.tryUpdate (s : Store) (k : String) (readRev : Nat) (f : String → String) :
    Except StoreErr (Store × Nat) :=
  match s.lookup k with
  | none => .error .notFound
  | some (v, _) =>
    if readRev ≠ s.rev then .error .conflict
    else if f v = v then .ok (s, s.rev)
    else .ok (⟨(k, f v, s.rev + 1) :: removeEntry s.data k, s.rev + 1⟩, s.rev + 1)

/-- Modelled from the spec: `GuaranteedUpdate` re-reads and applies the
mutator under a single critical section, so its read revision is the current
revision (§4.2). -/
def Store.guaranteedUpdate (s : Store) (k : String) (f : String → String) :
    Except StoreErr (Store × Nat) :=
  s.tryUpdate k s.rev f

/-- Sample one-entry store used by concrete witnesses. -/
def sampleStore : Store := ⟨[("a", "x", 1)], 1⟩

/-! ## HealthEvent phase machine

Modelled from the spec: the phase machine (§4.9) and the controllers are not
part of the accompanying source tree — only their end-to-end tests are — so
they are modelled from §3.1, §4.5–§4.9 of the specification. -/

/-- Modelled from the spec: the HealthEvent status phases of §3.1. The empty
string phase is treated as `New`, so `new` covers both. -/
inductive Phase where
  | new
  | quarantined
  | draining
  | drained
  | remediated
  | resolved
deriving DecidableEq, Fintype

/-- Position of a phase in the pipeline order `"" / New → Quarantined →
Draining → Drained → Remediated`, with `Resolved` last. -/
def phaseRank : Phase → Nat
  | .new => 0
  | .quarantined => 1
  | .draining => 2
  | .drained => 3
  | .remediated => 4
  | .resolved => 5

/-- Modelled from the spec: the allowed-transition graph of §4.9. -/
def allowedTransition : Phase → Phase → Bool
  | .new, .quarantined => true
  | .quarantined, .draining => true
  | .quarantined, .drained => true
  | .draining, .drained => true
  | .drained, .remediated => true
  | .new, .resolved => true
  | .quarantined, .resolved => true
  | .draining, .resolved => true
  | .drained, .resolved => true
  | .remediated, .resolved => true
  | _, _ => false

/-- Modelled from the spec: a status update proposing a phase transition
fails with `InvalidTransition` when the transition is not in the §4.9 graph. -/
def updatePhase (p q : Phase) : Except String Phase :=
  if allowedTransition p q then .ok q else .error "InvalidTransition"

/-- Effect of one attempted status update on the stored phase: a rejected
update leaves the phase unchanged (the controller re-reads and retries). -/
def applyUpdate (p q : Phase) : Phase :=
  match updatePhase p q with
  | .ok q' => q'
  | .error _ => p

/-- Stored phase after an operational history of attempted phase updates. -/
def runUpdates (p : Phase) (updates : List Phase) : Phase :=
  updates.foldl applyUpdate p

/-! ## Remediation pipeline

Modelled from the spec: the Quarantine, Drain and Remediation controllers
(§4.5–§4.7) and resolution on a healthy signal (§4.3), as a transition system
over one HealthEvent plus its RebootNode side-effect record. The controller
implementations are not in the accompanying source tree; only their
end-to-end tests are. -/

/-- Recommended remediation action of a HealthEvent (§3.1). -/
inductive RecommendedAction where
  | noAction
  | restartVM
  | resetGPU
  | contactSupport
deriving DecidableEq

/-- Per-event override flags (§3.1). -/
structure OverrideFlags where
  quarantineSkip : Bool
  drainSkip : Bool
  remediationSkip : Bool
deriving DecidableEq

/-- Immutable spec fields of a HealthEvent that the controllers consult. -/
structure EventSpec where
  isFatal : Bool
  recommendedAction : RecommendedAction
  overrides : OverrideFlags
deriving DecidableEq

/-- Modelled from the spec: the Remediation controller skips remediation when
`recommendedAction ∈ {NoAction, ContactSupport}` or
`overrides.remediation.skip = true` (§4.7). -/
def skipRemediation (e : EventSpec) : Bool :=
  match e.recommendedAction with
  | .noAction => true
  | .contactSupport => true
  | _ => e.overrides.remediationSkip

/-- Status value of a condition (§3.1). -/
inductive CondStatus where
  | condTrue
  | condFalse
  | condUnknown
deriving DecidableEq

/-- Observable state of one HealthEvent and its RebootNode side effect:
the phase, the `Remediated` condition (status and reason, when set), whether
a RebootNode record has been created, and whether the external executor has
completed it. -/
structure PipelineState where
  phase : Phase
  remediatedCond : Option (CondStatus × String)
  rebootCreated : Bool
  rebootDone : Bool
deriving DecidableEq

/-- State of a freshly published HealthEvent: phase `New`, no conditions, no
RebootNode record. -/
def PipelineState.start : PipelineState := ⟨Phase.new, none, false, false⟩

/-- Modelled from the spec: one reconcile or environment step of the pipeline
(§4.5–§4.7 and resolution per §4.3). Drain skipping covers both the
`drain.skip` override and the no-evictable-pods case, nondeterministically;
the external reboot executor completes created RebootNode records. -/
inductive PStep (e : EventSpec) : PipelineState → PipelineState → Prop
  | quarantine (s : PipelineState) :
      s.phase = Phase.new → PStep e s { s with phase := Phase.quarantined }
  | drainStart (s : PipelineState) :
      s.phase = Phase.quarantined → e.overrides.drainSkip = false →
      PStep e s { s with phase := Phase.draining }
  | drainSkip (s : PipelineState) :
      s.phase = Phase.quarantined → PStep e s { s with phase := Phase.drained }
  | drainComplete (s : PipelineState) :
      s.phase = Phase.draining → PStep e s { s with phase := Phase.drained }
  | remediateSkip (s : PipelineState) :
      s.phase = Phase.drained → skipRemediation e = true →
      PStep e s { s with remediatedCond := some (CondStatus.condFalse, "Skipped") }
  | remediateCreate (s : PipelineState) :
      s.phase = Phase.drained → skipRemediation e = false →
      PStep e s { s with rebootCreated := true }
  | rebootCompletes (s : PipelineState) :
      s.rebootCreated = true → PStep e s { s with rebootDone := true }
  | remediateFinish (s : PipelineState) :
      s.phase = Phase.drained → skipRemediation e = false →
      s.rebootCreated = true → s.rebootDone = true →
      PStep e s { s with phase := Phase.remediated,
                         remediatedCond := some (CondStatus.condTrue, "Completed") }
  | resolve (s : PipelineState) :
      s.phase ≠ Phase.resolved → PStep e s { s with phase := Phase.resolved }

/-- Reflexive-transitive closure of `PStep`: the states an event can reach. -/
inductive PReaches (e : EventSpec) : PipelineState → PipelineState → Prop
  | refl (s : PipelineState) : PReaches e s s
  | tail {s t u : PipelineState} :
      PReaches e s t → PStep e t u → PReaches e s u

/-- Sample ContactSupport event used by concrete witnesses. -/
def contactSupportSpec : EventSpec :=
  ⟨true, RecommendedAction.contactSupport, ⟨false, false, false⟩⟩

/-- Drained state with the skipped `Remediated` condition, reached by the
sample ContactSupport event. -/
def skippedDrainedState : PipelineState :=
  ⟨Phase.drained, some (CondStatus.condFalse, "Skipped"), false, false⟩

theorem defaultIgnoredXids_eq_true_iff (c : Nat) :
    defaultIgnoredXids c = true ↔ c ∈ defaultIgnoredXidList := by
  simp [defaultIgnoredXids]

theorem criticalXids_eq_true_iff (c : Nat) :
    criticalXids c = true ↔ c ∈ criticalXidList := by
  simp [criticalXids]

theorem mem_ignored_not_critical :
    ∀ c ∈ defaultIgnoredXidList, criticalXids c = false := by decide

/-- C2: `GetXidSeverity` returns `ignored` exactly on the codes of the default
ignored table, `critical` exactly on the codes of the critical table, and
`warning` on every other code. -/
theorem getXidSeverity_classification (c : Nat) :
    (GetXidSeverity c = XidSeverity.ignored ↔ c ∈ defaultIgnoredXidList) ∧
    (GetXidSeverity c = XidSeverity.critical ↔ c ∈ criticalXidList) ∧
    (c ∉ defaultIgnoredXidList → c ∉ criticalXidList →
      GetXidSeverity c = XidSeverity.warning) := by
  by_cases h1 : defaultIgnoredXids c = true
  · have hm : c ∈ defaultIgnoredXidList := (defaultIgnoredXids_eq_true_iff c).1 h1
    have hsev : GetXidSeverity c = XidSeverity.ignored := by
      simp [GetXidSeverity, h1]
    refine ⟨⟨fun _ => hm, fun _ => hsev⟩, ⟨?_, ?_⟩, ?_⟩
    · intro hc; rw [hsev] at hc; cases hc
    · intro hc
      have := mem_ignored_not_critical c hm
      rw [(criticalXids_eq_true_iff c).2 hc] at this
      cases this
    · intro hni _; exact absurd hm hni
  · have h1f : defaultIgnoredXids c = false := by
      cases h : defaultIgnoredXids c
      · rfl
      · exact absurd h h1
    have hni : c ∉ defaultIgnoredXidList := by
      intro hc
      exact h1 ((defaultIgnoredXids_eq_true_iff c).2 hc)
    by_cases h2 : criticalXids c = true
    · have hmc : c ∈ criticalXidList := (criticalXids_eq_true_iff c).1 h2
      have hsev : GetXidSeverity c = XidSeverity.critical := by
        simp [GetXidSeverity, h1f, h2]
      refine ⟨⟨?_, fun hc => absurd hc hni⟩, ⟨fun _ => hmc, fun _ => hsev⟩, ?_⟩
      · intro hc; rw [hsev] at hc; cases hc
      · intro _ hnc; exact absurd hmc hnc
    · have h2f : criticalXids c = false := by
        cases h : criticalXids c
        · rfl
        · exact absurd h h2
      have hnc : c ∉ criticalXidList := by
        intro hc
        exact h2 ((criticalXids_eq_true_iff c).2 hc)
      have hsev : GetXidSeverity c = XidSeverity.warning := by
        simp [GetXidSeverity, h1f, h2f]
      refine ⟨⟨?_, fun hc => absurd hc hni⟩, ⟨?_, fun hc => absurd hc hnc⟩, fun _ _ => hsev⟩
      · intro hc; rw [hsev] at hc; cases hc
      · intro hc; rw [hsev] at hc; cases hc

/-- Concrete instance of `getXidSeverity_classification`: code 48 is critical,
code 100 (in neither table) is a warning. -/
theorem getXidSeverity_classification_witness :
    GetXidSeverity 48 = XidSeverity.critical ∧
    GetXidSeverity 100 = XidSeverity.warning :=
  ⟨(getXidSeverity_classification 48).2.1.2 (by decide),
   (getXidSeverity_classification 100).2.2 (by decide) (by decide)⟩

/-- C10: the additional-ignored list is consulted only by `isIgnoredXid`
(true exactly on default-ignored codes and members of the list); severity
classification ignores it — in the source `GetXidSeverity` does not even take
the list as an argument, and an additionally-ignored code that is not
default-ignored is still classified `warning` or `critical`. -/
theorem isIgnoredXid_spec (c : Nat) (A : List Nat)
    (hmem : c ∈ A) (hdef : defaultIgnoredXids c = false) :
    isIgnoredXid c A = true ∧
    (GetXidSeverity c = XidSeverity.warning ∨ GetXidSeverity c = XidSeverity.critical) ∧
    (∀ (x : Nat) (B : List Nat),
      isIgnoredXid x B = true ↔ (defaultIgnoredXids x = true ∨ x ∈ B)) := by
  refine ⟨?_, ?_, ?_⟩
  · have hany : A.any (fun ignoredXid => c == ignoredXid) = true := by
      rw [List.any_eq_true]
      exact ⟨c, hmem, by simp⟩
    simp [isIgnoredXid, hdef, hany]
  · by_cases hc : criticalXids c = true
    · exact Or.inr (by simp [GetXidSeverity, hdef, hc])
    · have hcf : criticalXids c = false := by
        cases h : criticalXids c
        · rfl
        · exact absurd h hc
      exact Or.inl (by simp [GetXidSeverity, hdef, hcf])
  · intro x B
    by_cases hx : defaultIgnoredXids x = true
    · simp [isIgnoredXid, hx]
    · have hxf : defaultIgnoredXids x = false := by
        cases h : defaultIgnoredXids x
        · rfl
        · exact absurd h hx
      simp [isIgnoredXid, hxf, List.any_eq_true]

/-- Concrete instance of `isIgnoredXid_spec` at code 100 with additional list
`[100]`: the code becomes ignored for health purposes, yet its severity is
still `warning` or `critical`. -/
theorem isIgnoredXid_spec_witness :
    isIgnoredXid 100 [100] = true ∧
    (GetXidSeverity 100 = XidSeverity.warning ∨ GetXidSeverity 100 = XidSeverity.critical) :=
  ⟨(isIgnoredXid_spec 100 [100] (by decide) (by decide)).1,
   (isIgnoredXid_spec 100 [100] (by decide) (by decide)).2.1⟩

/-- C8 counterexample: code 1 is missing from both classification tables, yet
its description is "Unknown XID", not "Unknown"; code 8 is missing from both
classification tables but still has the specific description
"GPU not accessible". -/
theorem xid_unknown_counterexample :
    GetXidSeverity 1 = XidSeverity.warning ∧ xidToString 1 ≠ "Unknown" ∧
    GetXidSeverity 8 = XidSeverity.warning ∧ xidToString 8 ≠ "Unknown" := by
  refine ⟨by decide, ?_, by decide, ?_⟩
  · intro h
    simp [xidToString, XidDescriptions] at h
  · intro h
    simp [xidToString, XidDescriptions] at h

/-- C8 amended: a code missing from both classification tables is classified
`warning`; the human-readable description comes from the separate description
table, and is "Unknown XID" for codes missing from that table. -/
theorem xid_missing_defaults (c : Nat)
    (h1 : defaultIgnoredXids c = false) (h2 : criticalXids c = false) :
    GetXidSeverity c = XidSeverity.warning ∧
    (XidDescriptions c = none → xidToString c = "Unknown XID") := by
  constructor
  · simp [GetXidSeverity, h1, h2]
  · intro hd
    simp [xidToString, hd]

/-- Concrete instance of `xid_missing_defaults` at code 1000, which is in no
table at all. -/
theorem xid_missing_defaults_witness :
    GetXidSeverity 1000 = XidSeverity.warning ∧ xidToString 1000 = "Unknown XID" :=
  ⟨(xid_missing_defaults 1000 (by decide) (by decide)).1,
   (xid_missing_defaults 1000 (by decide) (by decide)).2 (by rfl)⟩

theorem modifyHead_self (l : List (List Char)) : l.modifyHead (fun t => t) = l := by
  cases l <;> rfl

theorem fieldsFuncAux_eq (cs : List Char) : ∀ acc : List Char,
    fieldsFuncAux cs acc =
      ((cs.splitOnP isXidSeparator).modifyHead (fun t => acc.reverse ++ t)).filter
        (fun t => !t.isEmpty) := by
  induction cs with
  | nil =>
    intro acc
    cases acc <;> simp [fieldsFuncAux, List.splitOnP_nil, List.modifyHead]
  | cons c cs ih =>
    intro acc
    by_cases hc : isXidSeparator c
    · have hsplit : (c :: cs).splitOnP isXidSeparator = [] :: cs.splitOnP isXidSeparator := by
        simp [List.splitOnP_cons, hc]
      have hrec : fieldsFuncAux cs [] =
          (cs.splitOnP isXidSeparator).filter (fun t => !t.isEmpty) := by
        rw [ih []]
        simp only [List.reverse_nil, List.nil_append]
        rw [modifyHead_self]
      rw [hsplit]
      cases acc with
      | nil => simp [fieldsFuncAux, hc, hrec, List.filter_cons]
      | cons a as =>
        simp only [fieldsFuncAux, hc, if_true, List.isEmpty_cons, if_neg]
        simp [hrec, List.filter_cons]
    · have hsplit : (c :: cs).splitOnP isXidSeparator =
          (cs.splitOnP isXidSeparator).modifyHead (List.cons c) := by
        simp [List.splitOnP_cons, hc]
      have hfun : ((fun t => acc.reverse ++ t) ∘ List.cons c) =
          (fun t => (c :: acc).reverse ++ t) := by
        funext t
        simp [List.reverse_cons, List.append_assoc]
      calc fieldsFuncAux (c :: cs) acc
          = fieldsFuncAux cs (c :: acc) := by simp [fieldsFuncAux, hc]
        _ = ((cs.splitOnP isXidSeparator).modifyHead
              (fun t => (c :: acc).reverse ++ t)).filter (fun t => !t.isEmpty) := ih (c :: acc)
        _ = (((c :: cs).splitOnP isXidSeparator).modifyHead
              (fun t => acc.reverse ++ t)).filter (fun t => !t.isEmpty) := by
            rw [hsplit, List.modifyHead_modifyHead, hfun]

theorem fieldsFunc_eq (cs : List Char) :
    fieldsFunc cs = (cs.splitOnP isXidSeparator).filter (fun t => !t.isEmpty) := by
  rw [fieldsFunc, fieldsFuncAux_eq cs []]
  simp only [List.reverse_nil, List.nil_append]
  rw [modifyHead_self]

theorem foldl_parse_eq (ts : List (List Char)) : ∀ acc : List Nat,
    ts.foldl
      (fun acc tok =>
        match parseUint64 tok with
        | none => acc
        | some v => acc ++ [v]) acc = acc ++ ts.filterMap parseUint64 := by
  induction ts with
  | nil => intro acc; simp
  | cons t ts ih =>
    intro acc
    cases h : parseUint64 t <;>
      simp [List.foldl_cons, h, List.filterMap_cons, ih, List.append_assoc]

/-- C7: `ParseIgnoredXids` splits the input on commas and spaces, keeps in
input order exactly the tokens that parse as unsigned 64-bit integers,
silently discards every other token, and returns the empty (no-override)
result on the empty input. -/
theorem parseIgnoredXids_spec :
    (∀ s : String,
      ParseIgnoredXids s =
        ((s.toList.splitOnP isXidSeparator).filter
          (fun t => !t.isEmpty)).filterMap parseUint64) ∧
    ParseIgnoredXids "" = [] := by
  have hmain : ∀ s : String,
      ParseIgnoredXids s =
        ((s.toList.splitOnP isXidSeparator).filter
          (fun t => !t.isEmpty)).filterMap parseUint64 := by
    intro s
    by_cases hs : s = ""
    · subst hs
      rfl
    · simp only [ParseIgnoredXids, if_neg hs]
      rw [fieldsFunc_eq, foldl_parse_eq, List.nil_append]
      split
      · next h => exact (List.length_eq_zero.1 h).symm
      · rfl
  exact ⟨hmain, hmain ""⟩

/-- C9: the composite's `CanHandle` is true iff some member can handle the
pod, and `DiscoverPeers` answers with the result of the first member (in
construction order) whose `CanHandle` is true, or with no gang (`(nil, nil)`,
the pod is a singleton) when no member can handle it. -/
theorem composite_discoverer_spec :
    ∀ (Pod Info E : Type) (ds : List (GangDiscoverer Pod Info E)) (pod : Pod),
      (compositeCanHandle ds pod = true ↔ ∃ d ∈ ds, d.canHandle pod = true) ∧
      compositeDiscoverPeers ds pod =
        (match ds.find? (fun d => d.canHandle pod) with
         | some d => d.discoverPeers pod
         | none => (none, none)) := by
  intro Pod Info E ds pod
  induction ds with
  | nil => simp [compositeCanHandle, compositeDiscoverPeers]
  | cons d rest ih =>
    by_cases hd : d.canHandle pod
    · constructor
      · simp [compositeCanHandle, hd]
      · simp [compositeDiscoverPeers, hd, List.find?_cons_of_pos _ hd]
    · have hdf : d.canHandle pod = false := by
        cases h : d.canHandle pod
        · rfl
        · exact absurd h hd
      constructor
      · simp [compositeCanHandle, hdf, ih.1]
      · simp [compositeDiscoverPeers, hdf, List.find?_cons_of_neg _ hd, ih.2]

/-- C3: `Create` fails with `AlreadyExists` exactly when the key is present
(and succeeds otherwise); `Get` and `Delete` fail with `NotFound` exactly when
the key is absent (and succeed otherwise); a successful `Delete` returns the
value that was stored under the deleted key. -/
theorem store_error_semantics (s : Store) (k v : String) :
    (s.create k v = .error .alreadyExists ↔ (s.lookup k).isSome) ∧
    (s.lookup k = none → ∃ out, s.create k v = .ok out) ∧
    (s.get k = .error .notFound ↔ s.lookup k = none) ∧
    (∀ (w : String) (r : Nat), s.lookup k = some (w, r) → s.get k = .ok (w, r)) ∧
    (s.delete k = .error .notFound ↔ s.lookup k = none) ∧
    (∀ (w : String) (r : Nat), s.lookup k = some (w, r) →
      s.delete k = .ok (⟨removeEntry s.data k, s.rev + 1⟩, w, r)) := by
  cases h : s.lookup k with
  | none =>
    refine ⟨?_, ?_, ?_, ?_, ?_, ?_⟩ <;>
      simp [Store.create, Store.get, Store.delete, h]
  | some e =>
    obtain ⟨w, r⟩ := e
    refine ⟨?_, ?_, ?_, ?_, ?_, ?_⟩ <;>
      simp [Store.create, Store.get, Store.delete, h]

/-- Concrete instance of `store_error_semantics`: creating a fresh key in the
empty store succeeds, and deleting the key of `sampleStore` returns the
stored value. -/
theorem store_error_semantics_witness :
    (∃ out, Store.init.create "a" "x" = .ok out) ∧
    sampleStore.delete "a" =
      .ok (⟨removeEntry sampleStore.data "a", sampleStore.rev + 1⟩, "x", 1) :=
  ⟨(store_error_semantics Store.init "a" "x").2.1 rfl,
   (store_error_semantics sampleStore "a" "x").2.2.2.2.2 "x" 1 rfl⟩

/-- C4: the global revision counter starts at 0 in a fresh store, every write
(create, actual update, delete) increments it by exactly one and stamps the
written object with the new counter value, a no-op update performs no write,
and the first object created in a fresh store carries revision 1. -/
theorem store_revision_discipline :
    Store.init.rev = 0 ∧
    (∀ (s : Store) (k v : String) (t : Store) (r : Nat),
      s.create k v = .ok (t, r) →
        t.rev = s.rev + 1 ∧ r = s.rev + 1 ∧ t.lookup k = some (v, s.rev + 1)) ∧
    (∀ (s : Store) (k w : String) (r0 : Nat) (f : String → String) (t : Store) (r : Nat),
      s.lookup k = some (w, r0) → f w ≠ w → s.guaranteedUpdate k f = .ok (t, r) →
        t.rev = s.rev + 1 ∧ r = s.rev + 1 ∧ t.lookup k = some (f w, s.rev + 1)) ∧
    (∀ (s : Store) (k w : String) (r0 : Nat) (f : String → String),
      s.lookup k = some (w, r0) → f w = w → s.guaranteedUpdate k f = .ok (s, s.rev)) ∧
    (∀ (s : Store) (k : String) (t : Store) (w : String) (r : Nat),
      s.delete k = .ok (t, w, r) → t.rev = s.rev + 1) ∧
    (∀ k v : String, Store.init.create k v = .ok (⟨[(k, v, 1)], 1⟩, 1)) := by
  refine ⟨rfl, ?_, ?_, ?_, ?_, ?_⟩
  · intro s k v t r h
    cases hl : s.lookup k with
    | some e => simp [Store.create, hl] at h
    | none =>
      simp [Store.create, hl] at h
      obtain ⟨rfl, rfl⟩ := h
      exact ⟨rfl, rfl, by simp [Store.lookup, lookupEntry]⟩
  · intro s k w r0 f t r hl hf h
    simp [Store.guaranteedUpdate, Store.tryUpdate, hl, hf] at h
    obtain ⟨rfl, rfl⟩ := h
    exact ⟨rfl, rfl, by simp [Store.lookup, lookupEntry]⟩
  · intro s k w r0 f hl hf
    simp [Store.guaranteedUpdate, Store.tryUpdate, hl, hf]
  · intro s k t w r h
    cases hl : s.lookup k with
    | none => simp [Store.delete, hl] at h
    | some e =>
      obtain ⟨w0, r0⟩ := e
      simp [Store.delete, hl] at h
      obtain ⟨rfl, -, -⟩ := h
      rfl
  · intro k v
    rfl

/-- Concrete instance of `store_revision_discipline`: creating "a" in the
fresh store yields `sampleStore`, whose revision is one more than the fresh
store's and whose entry is stamped with it. -/
theorem store_revision_discipline_witness :
    sampleStore.rev = Store.init.rev + 1 ∧
    sampleStore.lookup "a" = some ("x", Store.init.rev + 1) :=
  ⟨(store_revision_discipline.2.1 Store.init "a" "x" sampleStore 1 rfl).1,
   (store_revision_discipline.2.1 Store.init "a" "x" sampleStore 1 rfl).2.2⟩

/-- C5: two updaters of the same key that both read revision `R = s.rev` and
both mutate: the first compare-and-swap attempt succeeds and writes revision
R+1; the second attempt, still carrying read revision R, observes `Conflict`;
after re-reading revision R+1 its reapplied mutation writes revision R+2.
Conflict is observed exactly when an attempt's read revision differs from the
store's current revision. -/
theorem store_optimistic_concurrency
    (s : Store) (k w : String) (r0 : Nat) (f g : String → String)
    (hk : s.lookup k = some (w, r0)) (hf : f w ≠ w) (hg : g (f w) ≠ f w) :
    (∀ (readRev : Nat) (m : String → String),
      s.tryUpdate k readRev m = .error .conflict ↔ readRev ≠ s.rev) ∧
    ∃ s1 s2 : Store,
      s.tryUpdate k s.rev f = .ok (s1, s.rev + 1) ∧
      s1.rev = s.rev + 1 ∧ s1.lookup k = some (f w, s.rev + 1) ∧
      s1.tryUpdate k s.rev g = .error .conflict ∧
      s1.tryUpdate k (s.rev + 1) g = .ok (s2, s.rev + 2) ∧
      s2.rev = s.rev + 2 ∧ s2.lookup k = some (g (f w), s.rev + 2) := by
  constructor
  · intro readRev m
    by_cases hrr : readRev = s.rev
    · subst hrr
      simp only [Store.tryUpdate, hk, ne_eq, not_true_eq_false, if_false]
      constructor
      · intro h
        split at h <;> cases h
      · intro h
        exact h.elim
    · simp [Store.tryUpdate, hk, hrr]
  · have hne : s.rev ≠ s.rev + 1 := by omega
    refine ⟨⟨(k, f w, s.rev + 1) :: removeEntry s.data k, s.rev + 1⟩,
      ⟨(k, g (f w), s.rev + 2) ::
        removeEntry ((k, f w, s.rev + 1) :: removeEntry s.data k) k, s.rev + 2⟩,
      ?_, rfl, ?_, ?_, ?_, rfl, ?_⟩
    · simp [Store.tryUpdate, hk, hf]
    · simp [Store.lookup, lookupEntry]
    · simp [Store.tryUpdate, Store.lookup, lookupEntry, hne]
    · simp [Store.tryUpdate, Store.lookup, lookupEntry, hg]
    · simp [Store.lookup, lookupEntry]

/-- Concrete instance of `store_optimistic_concurrency` on `sampleStore` at
revision 1, with mutators appending "!" and "?". -/
theorem store_optimistic_concurrency_witness :
    ∃ s1 s2 : Store,
      sampleStore.tryUpdate "a" 1 (fun v => v ++ "!") = .ok (s1, 2) ∧
      s1.rev = 2 ∧ s1.lookup "a" = some ("x!", 2) ∧
      s1.tryUpdate "a" 1 (fun v => v ++ "?") = .error .conflict ∧
      s1.tryUpdate "a" 2 (fun v => v ++ "?") = .ok (s2, 3) ∧
      s2.rev = 3 ∧ s2.lookup "a" = some ("x!?", 3) :=
  (store_optimistic_concurrency sampleStore "a" "x" 1
    (fun v => v ++ "!") (fun v => v ++ "?") rfl (by decide) (by decide)).2

/-- C1: the phase only ever advances in the pipeline order (every allowed
transition strictly increases the rank, so no operation moves the phase
backward and over every operational history the stored rank is
non-decreasing); the transition to `Resolved` is permitted from every
non-terminal phase; `Resolved` is terminal. -/
theorem phase_monotone :
    (∀ p q : Phase, allowedTransition p q = true → phaseRank p < phaseRank q) ∧
    (∀ p : Phase, p ≠ Phase.resolved → allowedTransition p Phase.resolved = true) ∧
    (∀ q : Phase, allowedTransition Phase.resolved q = false) ∧
    (∀ p q : Phase, phaseRank p ≤ phaseRank (applyUpdate p q)) ∧
    (∀ (p : Phase) (updates : List Phase), phaseRank p ≤ phaseRank (runUpdates p updates)) := by
  have hstep : ∀ p q : Phase, phaseRank p ≤ phaseRank (applyUpdate p q) := by decide
  refine ⟨by decide, by decide, by decide, hstep, ?_⟩
  intro p updates
  induction updates generalizing p with
  | nil => exact Nat.le_refl _
  | cons u us ih =>
    exact Nat.le_trans (hstep p u) (ih (applyUpdate p u))

/-- Concrete instance of `phase_monotone`: the `New → Quarantined` transition
advances the rank, and `Drained → Resolved` is permitted. -/
theorem phase_monotone_witness :
    phaseRank Phase.new < phaseRank Phase.quarantined ∧
    allowedTransition Phase.drained Phase.resolved = true :=
  ⟨phase_monotone.1 Phase.new Phase.quarantined (by decide),
   phase_monotone.2.1 Phase.drained (by decide)⟩

theorem pstep_from_drained (e : EventSpec) (t u : PipelineState)
    (hskip : skipRemediation e = true) (hrb : t.rebootCreated = false)
    (hph : t.phase = Phase.drained) (hstep : PStep e t u) :
    u.phase = Phase.drained ∨ u.phase = Phase.resolved := by
  obtain ⟨ph, rc, rb, rd⟩ := t
  cases hstep <;> simp_all

/-- C6: for an event whose recommended action is NoAction or ContactSupport
or whose overrides skip remediation, every reachable state has no RebootNode
record and a phase other than `Remediated`; the `Remediated` condition is
only ever set to `False` with reason `Skipped`; and from phase `Drained` the
only moves are staying at `Drained` or resolving. -/
theorem remediation_skip_invariant (e : EventSpec) (s : PipelineState)
    (hskip : skipRemediation e = true)
    (hr : PReaches e PipelineState.start s) :
    s.rebootCreated = false ∧ s.phase ≠ Phase.remediated ∧
    (∀ (cs : CondStatus) (reason : String),
      s.remediatedCond = some (cs, reason) →
        cs = CondStatus.condFalse ∧ reason = "Skipped") ∧
    (s.phase = Phase.drained → ∀ u : PipelineState, PStep e s u →
      u.phase = Phase.drained ∨ u.phase = Phase.resolved) := by
  have hinv : ∀ st : PipelineState, PReaches e PipelineState.start st →
      st.rebootCreated = false ∧ st.phase ≠ Phase.remediated ∧
      (∀ (cs : CondStatus) (reason : String),
        st.remediatedCond = some (cs, reason) →
          cs = CondStatus.condFalse ∧ reason = "Skipped") := by
    intro st hreach
    induction hreach with
    | refl =>
      refine ⟨rfl, by decide, ?_⟩
      intro cs reason h
      simp [PipelineState.start] at h
    | tail hr0 hstep ih =>
      obtain ⟨ih1, ih2, ih3⟩ := ih
      cases hstep with
      | quarantine ht => exact ⟨ih1, by simp, ih3⟩
      | drainStart ht hd => exact ⟨ih1, by simp, ih3⟩
      | drainSkip ht => exact ⟨ih1, by simp, ih3⟩
      | drainComplete ht => exact ⟨ih1, by simp, ih3⟩
      | remediateSkip ht hs =>
        refine ⟨ih1, ih2, ?_⟩
        intro cs reason h
        simp only [Option.some.injEq, Prod.mk.injEq] at h
        exact ⟨h.1.symm, h.2.symm⟩
      | remediateCreate ht hs => simp [hs] at hskip
      | rebootCompletes hrc => simp [ih1] at hrc
      | remediateFinish ht hs hc hd => simp [hs] at hskip
      | resolve ht => exact ⟨ih1, by simp, ih3⟩
  obtain ⟨h1, h2, h3⟩ := hinv s hr
  exact ⟨h1, h2, h3, fun hph u hstep => pstep_from_drained e s u hskip h1 hph hstep⟩

/-- Concrete instance of `remediation_skip_invariant`: the ContactSupport
event, after quarantine, skipped drain and skipped remediation, sits at
`Drained` with no RebootNode record and has not been remediated. -/
theorem remediation_skip_invariant_witness :
    skippedDrainedState.rebootCreated = false ∧
    skippedDrainedState.phase ≠ Phase.remediated := by
  have htrace : PReaches contactSupportSpec PipelineState.start skippedDrainedState :=
    PReaches.tail (PReaches.tail (PReaches.tail (PReaches.refl PipelineState.start)
      (PStep.quarantine PipelineState.start rfl))
      (PStep.drainSkip ⟨Phase.quarantined, none, false, false⟩ rfl))
      (PStep.remediateSkip ⟨Phase.drained, none, false, false⟩ rfl rfl)
  have h := remediation_skip_invariant contactSupportSpec skippedDrainedState
    (by decide) htrace
  exact ⟨h.1, h.2.1⟩

end NVSentinel
